import Mathlib

/-!
Shallow embedding of `util/testrunner/qt-testrunner.py`.

The script wraps a Qt test executable: it runs the full suite once, parses
the XML result log, and re-runs individual failed test cases up to
`max_repeats` times until `passes_needed` passing exits are seen.  Process
spawning is modelled by an oracle giving each subprocess invocation's
outcome (exit code, possible timeout, and the report file the run leaves
behind); the control flow of `parse_log`, `rerun_failed_testcase` and
`main` is translated statement by statement.  Python exceptions that the
script can raise and catch (`AssertionError` from `assert`, timeout from
`subprocess.run`, the report-reading errors of `ET.parse`) are modelled as
explicit error values.
-/

namespace QtTestRunner

/-- Mirror of the `WhatFailed` named tuple: a test function name with an
optional data tag. -/
structure WhatFailed where
  func : String
  tag : Option String
deriving DecidableEq, Repr

/-- A parsed XML element: tag, attributes, child elements and text, as used
by `xml.etree.ElementTree` in the script. -/
inductive XmlNode where
  | mk (tag : String) (attrib : List (String × String)) (children : List XmlNode)
       (text : Option String)

def XmlNode.tag : XmlNode → String
  | .mk t _ _ _ => t

def XmlNode.attrib : XmlNode → List (String × String)
  | .mk _ a _ _ => a

def XmlNode.children : XmlNode → List XmlNode
  | .mk _ _ c _ => c

def XmlNode.text : XmlNode → Option String
  | .mk _ _ _ tx => tx

/-- Python `element.attrib[key]` lookup (as an `Option`; `none` models the
`KeyError` case). -/
def lookupAttr (attrs : List (String × String)) (k : String) : Option String :=
  (attrs.find? (fun p => p.1 == k)).map Prod.snd

/-- Python `element.find(tag)`: first direct child with the given tag. -/
def findChild (n : XmlNode) (t : String) : Option XmlNode :=
  n.children.find? (fun c => c.tag == t)

/-- The data tag attached to an incident: the text of its first `DataTag`
child, if any (mirrors `e2.find("DataTag")` followed by `e3.text`). -/
def dataTagOf (e2 : XmlNode) : Option String :=
  (findChild e2 "DataTag").bind XmlNode.text

/-- The state of the XML log file on disk after a run: absent
(`FileNotFoundError` in `ET.parse`), unparsable (`ET.ParseError`), or a
parsed document with the given root element. -/
inductive ReportFile where
  | missing
  | malformed
  | parsed (root : XmlNode)

/-- The exceptions `parse_log` can raise: no file path was produced
(`results_file is None`), file absent, XML malformed, wrong root tag
(`AssertionError`), or a missing attribute (`KeyError`).  All of them are
caught by the `except Exception` handlers in `main`. -/
inductive ParseLogError where
  | noReport
  | reportNotFound
  | reportMalformed
  | schemaViolation (rootTag : String)
  | keyError (key : String)
deriving DecidableEq, Repr

/-- One incident element of `parse_log`'s scan: append a failure identity
when its `type` attribute is `"fail"` or `"xpass"`, otherwise count a pass;
mirror the `KeyError` on a missing `type` or `name` attribute. -/
def parseIncident (e1 e2 : XmlNode) (acc : List WhatFailed × Nat) :
    Except ParseLogError (List WhatFailed × Nat) :=
  if e2.tag = "Incident" then
    match lookupAttr e2.attrib "type" with
    | none => .error (.keyError "type")
    | some ty =>
      if ty = "fail" ∨ ty = "xpass" then
        match lookupAttr e1.attrib "name" with
        | none => .error (.keyError "name")
        | some func => .ok (acc.1 ++ [⟨func, dataTagOf e2⟩], acc.2)
      else .ok (acc.1, acc.2 + 1)
  else .ok acc

/-- Scan of the children of one `TestFunction` element. -/
def parseFuncList (e1 : XmlNode) :
    List XmlNode → List WhatFailed × Nat → Except ParseLogError (List WhatFailed × Nat)
  | [], acc => .ok acc
  | e2 :: rest, acc =>
    match parseIncident e1 e2 acc with
    | .error e => .error e
    | .ok acc2 => parseFuncList e1 rest acc2

/-- Scan of the children of the root element; non-`TestFunction` children
are skipped, as in the source's `if e1.tag == "TestFunction"` guard. -/
def parseTopList :
    List XmlNode → List WhatFailed × Nat → Except ParseLogError (List WhatFailed × Nat)
  | [], acc => .ok acc
  | e1 :: rest, acc =>
    if e1.tag = "TestFunction" then
      match parseFuncList e1 e1.children acc with
      | .error e => .error e
      | .ok acc2 => parseTopList rest acc2
    else parseTopList rest acc

/-- Mirror of `parse_log(results_file)`: returns the ordered failure list
together with the pass count, or the exception it raises. -/
def parse_log : Option ReportFile → Except ParseLogError (List WhatFailed × Nat)
  | none => .error .noReport
  | some .missing => .error .reportNotFound
  | some .malformed => .error .reportMalformed
  | some (.parsed root) =>
    if root.tag = "TestCase" then parseTopList root.children ([], 0)
    else .error (.schemaViolation root.tag)

/-- Outcome of one `subprocess.run` call: normal termination with an exit
code, or `subprocess.TimeoutExpired` raised. -/
inductive RunResult where
  | exited (code : Int)
  | timedOut
deriving DecidableEq, Repr

/-- The two exception kinds that can escape `rerun_failed_testcase`:
`AssertionError` from its `assert` statements and `TimeoutExpired` from
`subprocess.run`. -/
inductive PyExc where
  | assertionError
  | timeoutExpired
deriving DecidableEq, Repr

/-- Record of one case-level `run_test` invocation: which attempt index it
was and whether the `VERBOSE_ARGS`/`VERBOSE_ENV` escalation was applied. -/
structure Attempt where
  idx : Nat
  verbose : Bool
deriving DecidableEq, Repr

/-- The source applies `VERBOSE_ARGS` and `VERBOSE_ENV` exactly when
`i < max_repeats - 1` fails, i.e. on the last iteration of
`range(max_repeats)`. -/
def verboseAt (maxRepeats : Int) (i : Nat) : Bool :=
  !(decide ((i : Int) < maxRepeats - 1))

/-- The `for i in range(max_repeats)` loop of `rerun_failed_testcase`,
processing the remaining attempt indices.  On normal exhaustion the two
trailing `assert` statements run (`n_passes < passes_needed` and
`n_passes <= max_repeats`). -/
def rerunGo (exec : Nat → RunResult) (maxRepeats passesNeeded : Int) :
    List Nat → Int → List Attempt → Except (PyExc × List Attempt) (Bool × List Attempt)
  | [], nPasses, trace =>
    if nPasses < passesNeeded then
      if nPasses ≤ maxRepeats then .ok (false, trace)
      else .error (.assertionError, trace)
    else .error (.assertionError, trace)
  | i :: rest, nPasses, trace =>
    match exec i with
    | .timedOut => .error (.timeoutExpired, trace ++ [⟨i, verboseAt maxRepeats i⟩])
    | .exited code =>
      let nP := if code = 0 then nPasses + 1 else nPasses
      if nP = passesNeeded then .ok (true, trace ++ [⟨i, verboseAt maxRepeats i⟩])
      else rerunGo exec maxRepeats passesNeeded rest nP (trace ++ [⟨i, verboseAt maxRepeats i⟩])

/-- Mirror of `rerun_failed_testcase`: the initial
`assert passes_needed <= max_repeats`, then the retry loop.  `exec i` gives
the outcome of the subprocess spawned on attempt `i`.  Returns the boolean
result of the Python function plus the list of attempts actually made, or
the exception raised (with the attempts made before it). -/
def rerun_failed_testcase (exec : Nat → RunResult) (maxRepeats passesNeeded : Int) :
    Except (PyExc × List Attempt) (Bool × List Attempt) :=
  if passesNeeded ≤ maxRepeats then
    rerunGo exec maxRepeats passesNeeded (List.range maxRepeats.toNat) 0 []
  else .error (.assertionError, [])

/-- Observable subprocess spawns of one tool invocation: full-suite runs
(`run_full_test`) and case-level re-runs (`run_test` inside
`rerun_failed_testcase`, with its attempt index and verbosity flag). -/
inductive Event where
  | fullRunSpawn (i : Nat)
  | caseSpawn (caseIdx : Nat) (attemptIdx : Nat) (verbose : Bool)
deriving DecidableEq, Repr

def isFullSpawn : Event → Bool
  | .fullRunSpawn _ => true
  | .caseSpawn _ _ _ => false

def caseEvent (caseIdx : Nat) (a : Attempt) : Event :=
  .caseSpawn caseIdx a.idx a.verbose

/-- The configuration fields of `args` that the orchestration core reads:
`--max-repeats`, `--passes-needed`, `--parse-xml-testlog` (with the content
of the given file) and `--no-extra-args`. -/
structure Args where
  maxRepeats : Int
  passesNeeded : Int
  parseXmlTestlog : Option ReportFile
  noExtraArgs : Bool

/-- Environment oracle: `fullRun i` is the outcome of the `i`-th full-suite
subprocess (its exit status and the state of the XML log file afterwards);
`caseRun idx att` is the outcome of attempt `att` for the `idx`-th entry of
the failing list. -/
structure Oracle where
  fullRun : Nat → RunResult × ReportFile
  caseRun : Nat → Nat → RunResult

/-- Outcome of one iteration of `main`'s full-run `try` block: `sys.exit(0)`
on a zero exit code, an exception caught by the handler, or a parsed
failure list reaching the `break`. -/
inductive TryOutcome where
  | exit0
  | exc
  | parsed (fs : List WhatFailed)

/-- One iteration of the `for i in range(n_full_runs)` loop of `main`.
With `--parse-xml-testlog` the script pretends `retcode = 1` and parses the
given file without spawning anything; otherwise it spawns the full run,
exits 0 on a zero exit code, parses the log, and the
`assert len(failed_functions) > 0` guard raises on an empty failure list.
With `--no-extra-args` no log path is produced and `parse_log(None)`
raises. -/
def fullAttempt (args : Args) (ora : Oracle) (i : Nat) : TryOutcome × List Event :=
  match args.parseXmlTestlog with
  | some rf =>
    match parse_log (some rf) with
    | .error _ => (.exc, [])
    | .ok (fs, _) => (.parsed fs, [])
  | none =>
    match ora.fullRun i with
    | (.timedOut, _) => (.exc, [.fullRunSpawn i])
    | (.exited c, rep) =>
      if c = 0 then (.exit0, [.fullRunSpawn i])
      else
        match parse_log (if args.noExtraArgs then none else some rep) with
        | .error _ => (.exc, [.fullRunSpawn i])
        | .ok (fs, _) =>
          if fs.isEmpty then (.exc, [.fullRunSpawn i])
          else (.parsed fs, [.fullRunSpawn i])

/-- The `for what_failed in failed_functions` loop of `main`: each
identity's retry returns normally (`False` exits 2, `True` continues) or
raises (exit 3); an exhausted list exits 0. -/
def caseLoop (args : Args) (ora : Oracle) :
    List WhatFailed → Nat → List Event → Nat × List Event
  | [], _, ev => (0, ev)
  | _f :: rest, idx, ev =>
    match rerun_failed_testcase (ora.caseRun idx) args.maxRepeats args.passesNeeded with
    | .error (_, t) => (3, ev ++ t.map (caseEvent idx))
    | .ok (true, t) => caseLoop args ora rest (idx + 1) (ev ++ t.map (caseEvent idx))
    | .ok (false, t) => (2, ev ++ t.map (caseEvent idx))

/-- The tail of `main` after the full-run loop broke with a failure list:
`sys.exit(2)` when `max_repeats == 0`, otherwise the per-case loop. -/
def phase2 (args : Args) (ora : Oracle) (fs : List WhatFailed) (ev : List Event) :
    Nat × List Event :=
  if args.maxRepeats = 0 then (2, ev)
  else caseLoop args ora fs 0 ev

/-- Mirror of `main()`: returns the process exit code together with the
list of subprocess spawns, in order.  `n_full_runs` is 1 with
`--parse-xml-testlog` and 2 otherwise, so the full-run loop is unrolled
into at most two `fullAttempt` iterations; an exception on the last
iteration exits 3. -/
def mainRun (args : Args) (ora : Oracle) : Nat × List Event :=
  match fullAttempt args ora 0 with
  | (.exit0, ev) => (0, ev)
  | (.parsed fs, ev) => phase2 args ora fs ev
  | (.exc, ev) =>
    if args.parseXmlTestlog.isSome then (3, ev)
    else
      match fullAttempt args ora 1 with
      | (.exit0, ev2) => (0, ev ++ ev2)
      | (.parsed fs, ev2) => phase2 args ora fs (ev ++ ev2)
      | (.exc, ev2) => (3, ev ++ ev2)

/-- Number of zero exit codes among the first `n` attempt outcomes of a
case-level oracle, as an integer (the value of the loop's `n_passes`
counter after `n` attempts without an early return). -/
def countZerosFrom (exec : Nat → Int) : Nat → Nat → Int
  | _, 0 => 0
  | i, n + 1 => (if exec i = 0 then 1 else 0) + countZerosFrom exec (i + 1) n

def countZeros (exec : Nat → Int) (n : Nat) : Int :=
  countZerosFrom exec 0 n

/-- Modelled from the spec: the failure identities one incident element
contributes, per the report-format contract — a failure-signal is an
incident whose classification is `"fail"` or `"xpass"`, carrying the
enclosing function's name and the incident's optional data tag. -/
def specIncidentFailure (e1 e2 : XmlNode) : List WhatFailed :=
  if e2.tag = "Incident" then
    match lookupAttr e2.attrib "type" with
    | some ty =>
      if ty = "fail" ∨ ty = "xpass" then
        [⟨(lookupAttr e1.attrib "name").getD "", dataTagOf e2⟩]
      else []
    | none => []
  else []

/-- Modelled from the spec: incidents of any other classification count
toward the pass count. -/
def specIncidentPass (e2 : XmlNode) : Nat :=
  if e2.tag = "Incident" then
    match lookupAttr e2.attrib "type" with
    | some ty => if ty = "fail" ∨ ty = "xpass" then 0 else 1
    | none => 0
  else 0

def specFailuresIn (e1 : XmlNode) : List XmlNode → List WhatFailed
  | [] => []
  | e2 :: rest => specIncidentFailure e1 e2 ++ specFailuresIn e1 rest

def specPassesIn : List XmlNode → Nat
  | [] => 0
  | e2 :: rest => specIncidentPass e2 + specPassesIn rest

/-- Modelled from the spec: the ordered failure-identity list of a report —
failure-signal incidents of the `TestFunction` children, in order of
appearance, duplicates retained. -/
def specFailures : List XmlNode → List WhatFailed
  | [] => []
  | e1 :: rest =>
    (if e1.tag = "TestFunction" then specFailuresIn e1 e1.children else []) ++
      specFailures rest

def specPassCount : List XmlNode → Nat
  | [] => 0
  | e1 :: rest =>
    (if e1.tag = "TestFunction" then specPassesIn e1.children else 0) + specPassCount rest

/-- An incident element is well-formed when it carries a `type` attribute. -/
def wfIncident (e2 : XmlNode) : Bool :=
  e2.tag != "Incident" || (lookupAttr e2.attrib "type").isSome

/-- A function element is well-formed when it carries a `name` attribute and
all its incident children are well-formed. -/
def wfFunction (e1 : XmlNode) : Bool :=
  e1.tag != "TestFunction" ||
    ((lookupAttr e1.attrib "name").isSome && e1.children.all wfIncident)

/-- A well-formed report: root tagged `TestCase` with well-formed function
children. -/
def wellFormedRoot (root : XmlNode) : Bool :=
  root.tag == "TestCase" && root.children.all wfFunction

/-- A report whose only incident is a pass: non-zero exit together with this
report is the `ZeroFailuresOnNonZeroExit` anomaly. -/
def sampleRootPassing : XmlNode :=
  .mk "TestCase" [("name", "tst_sample")]
    [.mk "TestFunction" [("name", "foo")]
      [.mk "Incident" [("type", "pass")] [] none] none] none

def sampleFailFunc (fn : String) : XmlNode :=
  .mk "TestFunction" [("name", fn)] [.mk "Incident" [("type", "fail")] [] none] none

def sampleRootOneFail : XmlNode :=
  .mk "TestCase" [] [sampleFailFunc "foo"] none

def sampleRootTwoFails : XmlNode :=
  .mk "TestCase" [] [sampleFailFunc "foo", sampleFailFunc "bar"] none

/-- A report with a pass, a tagged fail and an xpass, for exercising the
parser. -/
def sampleRootRich : XmlNode :=
  .mk "TestCase" []
    [.mk "TestFunction" [("name", "alpha")]
      [.mk "Incident" [("type", "pass")] [] none,
       .mk "Incident" [("type", "fail")] [.mk "DataTag" [] [] (some "t1")] none] none,
     .mk "TestFunction" [("name", "beta")]
      [.mk "Incident" [("type", "xpass")] [] none] none] none

def idleOracle : Oracle :=
  ⟨fun _ => (.exited 0, .missing), fun _ _ => .exited 0⟩

lemma countZerosFrom_nonneg (exec : Nat → Int) : ∀ (n i : Nat), 0 ≤ countZerosFrom exec i n := by
  intro n
  induction n with
  | zero => intro i; simp [countZerosFrom]
  | succ n ih =>
    intro i
    have := ih (i + 1)
    simp only [countZerosFrom]
    split <;> omega

lemma countZerosFrom_succ (exec : Nat → Int) (i n : Nat) :
    countZerosFrom exec i (n + 1)
      = (if exec i = 0 then 1 else 0) + countZerosFrom exec (i + 1) n := rfl

/-- Full characterisation of the retry loop on a timeout-free oracle,
relative to a start index `i`, the remaining iteration count `n`, the
running `n_passes` value and the trace accumulated so far. -/
lemma rerunGo_exited_spec (exec : Nat → Int) (mR pN : Int) :
    ∀ (n i : Nat) (nP : Int) (trace : List Attempt),
      nP < pN → 0 ≤ nP → nP + (n : Int) ≤ mR →
      ∃ b t,
        rerunGo (fun j => RunResult.exited (exec j)) mR pN (List.range' i n) nP trace
          = .ok (b, trace ++ t) ∧
        t = (List.range' i t.length).map (fun j => ⟨j, verboseAt mR j⟩) ∧
        t.length ≤ n ∧
        (b = true ↔ pN ≤ nP + countZerosFrom exec i n) ∧
        (b = true → nP + countZerosFrom exec i t.length = pN ∧
          ∀ k < t.length, nP + countZerosFrom exec i k < pN) ∧
        (b = false → t.length = n) := by
  intro n
  induction n with
  | zero =>
    intro i nP trace h hnn hinv
    have hle : nP ≤ mR := by omega
    refine ⟨false, [], ?_, by simp, by simp, ?_, ?_, fun _ => rfl⟩
    · simp [rerunGo, h, hle]
    · simp only [countZerosFrom]
      constructor
      · intro hb; exact absurd hb (by simp)
      · intro hle2; omega
    · intro hb; exact absurd hb (by simp)
  | succ n ih =>
    intro i nP trace h hnn hinv
    rw [List.range'_succ]
    simp only [rerunGo]
    by_cases hz : exec i = 0
    · by_cases hp : nP + 1 = pN
      · refine ⟨true, [⟨i, verboseAt mR i⟩], ?_, ?_, ?_, ?_, ?_, ?_⟩
        · simp [hz, hp]
        · simp [List.range'_succ]
        · simp
        · have := countZerosFrom_nonneg exec n (i + 1)
          simp only [countZerosFrom_succ, if_pos hz, true_iff]
          omega
        · intro _
          constructor
          · simp [countZerosFrom, hz]; omega
          · intro k hk
            have hk0 : k = 0 := by simp at hk; omega
            subst hk0
            simp [countZerosFrom]; omega
        · intro hb; exact absurd hb (by simp)
      · have h2 : nP + 1 < pN := by omega
        obtain ⟨b, t, hres, hshape, hlen, hiff, htrue, hfalse⟩ :=
          ih (i + 1) (nP + 1) (trace ++ [⟨i, verboseAt mR i⟩]) h2 (by omega) (by push_cast at hinv ⊢; omega)
        refine ⟨b, ⟨i, verboseAt mR i⟩ :: t, ?_, ?_, ?_, ?_, ?_, ?_⟩
        · simp only [if_pos hz, if_neg hp]
          rw [hres]
          simp
        · simp only [List.length_cons, List.range'_succ, List.map_cons]
          rw [← hshape]
        · simp only [List.length_cons]
          omega
        · rw [hiff]
          simp only [countZerosFrom_succ, if_pos hz]
          constructor <;> (intro; omega)
        · intro hb
          obtain ⟨he, hall⟩ := htrue hb
          constructor
          · simp only [List.length_cons, countZerosFrom_succ, if_pos hz]
            omega
          · intro k hk
            match k with
            | 0 => simp only [countZerosFrom]; omega
            | k' + 1 =>
              have hk' : k' < t.length := by simpa using hk
              have := hall k' hk'
              simp only [countZerosFrom_succ, if_pos hz]
              omega
        · intro hb
          have := hfalse hb
          simp only [List.length_cons]
          omega
    · have hp : ¬ nP = pN := by omega
      obtain ⟨b, t, hres, hshape, hlen, hiff, htrue, hfalse⟩ :=
        ih (i + 1) nP (trace ++ [⟨i, verboseAt mR i⟩]) h hnn (by push_cast at hinv ⊢; omega)
      refine ⟨b, ⟨i, verboseAt mR i⟩ :: t, ?_, ?_, ?_, ?_, ?_, ?_⟩
      · simp only [if_neg hz, if_neg hp]
        rw [hres]
        simp
      · simp only [List.length_cons, List.range'_succ, List.map_cons]
        rw [← hshape]
      · simp only [List.length_cons]
        omega
      · rw [hiff]
        simp only [countZerosFrom_succ, if_neg hz]
        constructor <;> (intro; omega)
      · intro hb
        obtain ⟨he, hall⟩ := htrue hb
        constructor
        · simp only [List.length_cons, countZerosFrom_succ, if_neg hz]
          omega
        · intro k hk
          match k with
          | 0 => simp only [countZerosFrom]; omega
          | k' + 1 =>
            have hk' : k' < t.length := by simpa using hk
            have := hall k' hk'
            simp only [countZerosFrom_succ, if_neg hz]
            omega
      · intro hb
        have := hfalse hb
        simp only [List.length_cons]
        omega

lemma verboseAt_true_iff (mR : Int) (j : Nat) (h1 : 1 ≤ mR) (hj : j < mR.toNat) :
    verboseAt mR j = true ↔ j = mR.toNat - 1 := by
  simp only [verboseAt, Bool.not_eq_true', decide_eq_false_iff_not, not_lt]
  omega

lemma countP_range'_verbose (mR : Int) (h1 : 1 ≤ mR) :
    ∀ (n i : Nat), 1 ≤ n → i + n = mR.toNat →
      (List.range' i n).countP (fun j => verboseAt mR j) = 1 := by
  intro n
  induction n with
  | zero => intro i hn _; omega
  | succ n ih =>
    intro i _ htot
    rw [List.range'_succ, List.countP_cons]
    by_cases hn : n = 0
    · subst hn
      have hv : verboseAt mR i = true :=
        (verboseAt_true_iff mR i h1 (by omega)).mpr (by omega)
      simp [hv]
    · have hne : ¬ verboseAt mR i = true := by
        intro hvt
        have := (verboseAt_true_iff mR i h1 (by omega)).mp hvt
        omega
      have hv : verboseAt mR i = false := Bool.eq_false_iff.mpr hne
      rw [ih (i + 1) (by omega) (by omega)]
      simp [hv]

/-- C3: with `1 ≤ passesNeeded ≤ maxRepeats` and a timeout-free case oracle,
the retry loop returns `true` (RECOVERED) exactly when the pass counter —
incremented once per attempt whose exit code is zero — reaches
`passesNeeded` within `maxRepeats` attempts; it stops at the first attempt
at which the counter reaches the threshold, and if all `maxRepeats`
attempts complete without reaching it, it returns `false` (UNRECOVERED). -/
theorem c3_rerun_pass_threshold (exec : Nat → Int) (mR pN : Int)
    (h1 : 1 ≤ pN) (h2 : pN ≤ mR) (b : Bool) (t : List Attempt)
    (hres : rerun_failed_testcase (fun j => RunResult.exited (exec j)) mR pN = .ok (b, t)) :
    (b = true ↔ pN ≤ countZeros exec mR.toNat) ∧
    t.length ≤ mR.toNat ∧
    (b = true → countZeros exec t.length = pN ∧ ∀ k < t.length, countZeros exec k < pN) ∧
    (b = false → t.length = mR.toNat) := by
  obtain ⟨b', t', hres', hshape, hlen, hiff, htrue, hfalse⟩ :=
    rerunGo_exited_spec exec mR pN mR.toNat 0 0 [] (by omega) le_rfl (by omega)
  have hr2 : rerun_failed_testcase (fun j => RunResult.exited (exec j)) mR pN
      = .ok (b', t') := by
    unfold rerun_failed_testcase
    rw [if_pos h2, List.range_eq_range']
    simpa using hres'
  have heq : (Except.ok (b, t) : Except (PyExc × List Attempt) (Bool × List Attempt))
      = .ok (b', t') := hres.symm.trans hr2
  simp only [Except.ok.injEq, Prod.mk.injEq] at heq
  obtain ⟨hb, ht⟩ := heq
  subst hb; subst ht
  refine ⟨?_, hlen, ?_, hfalse⟩
  · rw [hiff, countZeros]
    omega
  · intro hbt
    obtain ⟨he, hall⟩ := htrue hbt
    refine ⟨by rw [countZeros]; omega, fun k hk => ?_⟩
    have := hall k hk
    rw [countZeros]
    omega

/-- C3 witness: with exit codes `[1, 1, 0]`, three repeats and one needed
pass, the loop recovers, and the pass count over the three attempts it made
is exactly the threshold. -/
theorem c3_rerun_pass_threshold_witness :
    (1 : Int) ≤ countZeros (fun i => if i = 2 then (0 : Int) else 1) ((3 : Int).toNat) ∧
    countZeros (fun i => if i = 2 then (0 : Int) else 1)
      ([(⟨0, false⟩ : Attempt), ⟨1, false⟩, ⟨2, true⟩].length) = 1 := by
  have h := c3_rerun_pass_threshold (fun i => if i = 2 then (0 : Int) else 1) 3 1
    (by decide) (by decide) true [⟨0, false⟩, ⟨1, false⟩, ⟨2, true⟩] rfl
  exact ⟨h.1.mp rfl, (h.2.2.1 rfl).1⟩

/-- C7: when the retry loop exhausts all `maxRepeats` attempts without
recovering, the escalated-verbosity arguments and environment are applied
on exactly one attempt — the final one, with attempt index
`maxRepeats - 1` — and on no earlier attempt. -/
theorem c7_verbose_only_last_attempt (exec : Nat → Int) (mR pN : Int)
    (h1 : 1 ≤ pN) (h2 : pN ≤ mR) (t : List Attempt)
    (hres : rerun_failed_testcase (fun j => RunResult.exited (exec j)) mR pN
      = .ok (false, t)) :
    t.countP (fun a => a.verbose) = 1 ∧ t.length = mR.toNat ∧
    ∀ a ∈ t, (a.verbose = true ↔ a.idx = mR.toNat - 1) := by
  obtain ⟨b', t', hres', hshape, hlen, hiff, htrue, hfalse⟩ :=
    rerunGo_exited_spec exec mR pN mR.toNat 0 0 [] (by omega) le_rfl (by omega)
  have hr2 : rerun_failed_testcase (fun j => RunResult.exited (exec j)) mR pN
      = .ok (b', t') := by
    unfold rerun_failed_testcase
    rw [if_pos h2, List.range_eq_range']
    simpa using hres'
  have heq : (Except.ok (false, t) : Except (PyExc × List Attempt) (Bool × List Attempt))
      = .ok (b', t') := hres.symm.trans hr2
  simp only [Except.ok.injEq, Prod.mk.injEq] at heq
  obtain ⟨hb, ht⟩ := heq
  subst ht
  have hlenEq : t.length = mR.toNat := hfalse hb.symm
  refine ⟨?_, hlenEq, ?_⟩
  · rw [hshape, List.countP_map]
    exact countP_range'_verbose mR (by omega) t.length 0 (by omega) (by omega)
  · intro a ha
    rw [hshape] at ha
    simp only [List.mem_map] at ha
    obtain ⟨j, hj, rfl⟩ := ha
    have hjr := List.mem_range'_1.mp hj
    exact verboseAt_true_iff mR j (by omega) (by omega)

/-- C7 witness: two always-failing attempts with one needed pass make an
unrecovered trace of length two in which exactly one attempt — the last —
was verbose. -/
theorem c7_verbose_only_last_attempt_witness :
    ([(⟨0, false⟩ : Attempt), ⟨1, true⟩].countP (fun a => a.verbose) = 1) ∧
    ([(⟨0, false⟩ : Attempt), ⟨1, true⟩].length = (2 : Int).toNat) := by
  have h := c7_verbose_only_last_attempt (fun _ => (1 : Int)) 2 1
    (by decide) (by decide) [⟨0, false⟩, ⟨1, true⟩] rfl
  exact ⟨h.1, h.2.1⟩

lemma parseIncident_wf (e1 e2 : XmlNode) (fs : List WhatFailed) (np : Nat)
    (hwf : wfIncident e2 = true)
    (hname : (lookupAttr e1.attrib "name").isSome) :
    parseIncident e1 e2 (fs, np)
      = .ok (fs ++ specIncidentFailure e1 e2, np + specIncidentPass e2) := by
  by_cases htag : e2.tag = "Incident"
  · simp only [wfIncident, htag, bne_self_eq_false, Bool.false_or] at hwf
    obtain ⟨ty, hty⟩ := Option.isSome_iff_exists.mp hwf
    obtain ⟨func, hfunc⟩ := Option.isSome_iff_exists.mp hname
    by_cases hf : ty = "fail" ∨ ty = "xpass"
    · simp [parseIncident, specIncidentFailure, specIncidentPass, htag, hty, hfunc, hf]
    · simp [parseIncident, specIncidentFailure, specIncidentPass, htag, hty, hf]
  · simp [parseIncident, specIncidentFailure, specIncidentPass, htag]

lemma parseFuncList_wf (e1 : XmlNode) (hname : (lookupAttr e1.attrib "name").isSome) :
    ∀ (l : List XmlNode) (fs : List WhatFailed) (np : Nat),
      (∀ e2 ∈ l, wfIncident e2 = true) →
      parseFuncList e1 l (fs, np) = .ok (fs ++ specFailuresIn e1 l, np + specPassesIn l) := by
  intro l
  induction l with
  | nil => intro fs np _; simp [parseFuncList, specFailuresIn, specPassesIn]
  | cons e2 rest ih =>
    intro fs np hall
    have hwf : wfIncident e2 = true := hall e2 (by simp)
    rw [parseFuncList, parseIncident_wf e1 e2 fs np hwf hname]
    show parseFuncList e1 rest (fs ++ specIncidentFailure e1 e2, np + specIncidentPass e2) = _
    rw [ih (fs ++ specIncidentFailure e1 e2) (np + specIncidentPass e2)
      (fun x hx => hall x (by simp [hx]))]
    simp [specFailuresIn, specPassesIn, Nat.add_assoc]

lemma parseTopList_wf :
    ∀ (l : List XmlNode) (fs : List WhatFailed) (np : Nat),
      (∀ e1 ∈ l, wfFunction e1 = true) →
      parseTopList l (fs, np) = .ok (fs ++ specFailures l, np + specPassCount l) := by
  intro l
  induction l with
  | nil => intro fs np _; simp [parseTopList, specFailures, specPassCount]
  | cons e1 rest ih =>
    intro fs np hall
    have hwf : wfFunction e1 = true := hall e1 (by simp)
    by_cases htag : e1.tag = "TestFunction"
    · simp only [wfFunction, htag, bne_self_eq_false, Bool.false_or,
        Bool.and_eq_true, List.all_eq_true] at hwf
      obtain ⟨hname, hincs⟩ := hwf
      rw [parseTopList, if_pos htag, parseFuncList_wf e1 hname e1.children fs np hincs]
      show parseTopList rest (fs ++ specFailuresIn e1 e1.children, np + specPassesIn e1.children) = _
      rw [ih (fs ++ specFailuresIn e1 e1.children) (np + specPassesIn e1.children)
        (fun x hx => hall x (by simp [hx]))]
      simp [specFailures, specPassCount, htag, Nat.add_assoc]
    · rw [parseTopList, if_neg htag]
      rw [ih fs np (fun x hx => hall x (by simp [hx]))]
      simp [specFailures, specPassCount, htag]

/-- C8: for every well-formed report whose root carries the `TestCase`
marker, `parse_log` returns exactly the incidents whose `type` attribute is
`"fail"` or `"xpass"`, as identities (function name plus optional data
tag), in order of appearance with duplicates retained, and counts every
other incident as a pass. -/
theorem c8_parser_returns_fail_xpass (root : XmlNode)
    (h : wellFormedRoot root = true) :
    parse_log (some (.parsed root))
      = .ok (specFailures root.children, specPassCount root.children) := by
  rw [wellFormedRoot, Bool.and_eq_true, beq_iff_eq] at h
  obtain ⟨htag, hall⟩ := h
  rw [List.all_eq_true] at hall
  show (if root.tag = "TestCase" then parseTopList root.children ([], 0)
    else .error (.schemaViolation root.tag)) = _
  rw [if_pos htag]
  simpa using parseTopList_wf root.children [] 0 hall

/-- C8 witness: on a report with a pass, a data-tagged fail and an xpass,
the parser returns the two failure identities in order and one pass. -/
theorem c8_parser_returns_fail_xpass_witness :
    wellFormedRoot sampleRootRich = true ∧
    parse_log (some (.parsed sampleRootRich))
      = .ok ([⟨"alpha", some "t1"⟩, ⟨"beta", none⟩], 1) :=
  ⟨rfl, (c8_parser_returns_fail_xpass sampleRootRich rfl).trans rfl⟩

lemma fullAttempt_events_normal (args : Args) (ora : Oracle) (i : Nat)
    (h1 : args.parseXmlTestlog = none) :
    (fullAttempt args ora i).2 = [.fullRunSpawn i] := by
  unfold fullAttempt
  rw [h1]
  rcases ora.fullRun i with ⟨res, rep⟩
  cases res with
  | timedOut => rfl
  | exited c =>
    by_cases hc : c = 0
    · simp [hc]
    · simp only [if_neg hc]
      rcases parse_log (if args.noExtraArgs then none else some rep) with e | pr
      · rfl
      · rcases pr with ⟨fs, np⟩
        by_cases hfs : fs.isEmpty <;> simp [hfs]

lemma fullAttempt_parsed_of (args : Args) (ora : Oracle) (i : Nat)
    (c : Int) (rep : ReportFile) (f : WhatFailed) (fs : List WhatFailed) (np : Nat)
    (h1 : args.parseXmlTestlog = none) (h2 : args.noExtraArgs = false)
    (h3 : ora.fullRun i = (.exited c, rep)) (h4 : c ≠ 0)
    (h5 : parse_log (some rep) = .ok (f :: fs, np)) :
    fullAttempt args ora i = (.parsed (f :: fs), [.fullRunSpawn i]) := by
  unfold fullAttempt
  rw [h1, h3]
  simp [h4, h2, h5]

lemma fullAttempt_exc_of_parseError (args : Args) (ora : Oracle) (i : Nat)
    (c : Int) (rep : ReportFile) (e : ParseLogError)
    (h1 : args.parseXmlTestlog = none) (h2 : args.noExtraArgs = false)
    (h3 : ora.fullRun i = (.exited c, rep)) (h4 : c ≠ 0)
    (h5 : parse_log (some rep) = .error e) :
    fullAttempt args ora i = (.exc, [.fullRunSpawn i]) := by
  unfold fullAttempt
  rw [h1, h3]
  simp [h4, h2, h5]

lemma fullAttempt_exc_of_emptyFailures (args : Args) (ora : Oracle) (i : Nat)
    (c : Int) (rep : ReportFile) (np : Nat)
    (h1 : args.parseXmlTestlog = none) (h2 : args.noExtraArgs = false)
    (h3 : ora.fullRun i = (.exited c, rep)) (h4 : c ≠ 0)
    (h5 : parse_log (some rep) = .ok ([], np)) :
    fullAttempt args ora i = (.exc, [.fullRunSpawn i]) := by
  unfold fullAttempt
  rw [h1, h3]
  simp [h4, h2, h5]

lemma fullAttempt_alt_parsed (args : Args) (ora : Oracle) (i : Nat)
    (rf : ReportFile) (fs : List WhatFailed) (np : Nat)
    (h1 : args.parseXmlTestlog = some rf)
    (h2 : parse_log (some rf) = .ok (fs, np)) :
    fullAttempt args ora i = (.parsed fs, []) := by
  unfold fullAttempt
  rw [h1]
  simp [h2]

lemma countP_caseEvents (idx : Nat) (t : List Attempt) :
    (t.map (caseEvent idx)).countP isFullSpawn = 0 := by
  induction t with
  | nil => rfl
  | cons a t ih => simp [caseEvent, isFullSpawn, List.countP_cons, ih]

lemma caseLoop_countP (args : Args) (ora : Oracle) :
    ∀ (fs : List WhatFailed) (idx : Nat) (ev : List Event),
      ((caseLoop args ora fs idx ev).2).countP isFullSpawn = ev.countP isFullSpawn := by
  intro fs
  induction fs with
  | nil => intro idx ev; rfl
  | cons f rest ih =>
    intro idx ev
    rw [caseLoop]
    rcases rerun_failed_testcase (ora.caseRun idx) args.maxRepeats args.passesNeeded
      with ⟨exc, t⟩ | ⟨b, t⟩
    · simp [List.countP_append, countP_caseEvents, caseEvent, isFullSpawn]
    · cases b
      · simp [List.countP_append, countP_caseEvents, caseEvent, isFullSpawn]
      · rw [ih]
        simp [List.countP_append, countP_caseEvents, caseEvent, isFullSpawn]

/-- C9: when `maxRepeats = 0` and the initial full run exits non-zero with
a report yielding at least one failure identity, the tool exits 2 (FAIL)
immediately: the event trace holds exactly the one full-run spawn and no
case-level spawn. -/
theorem c9_max_repeats_zero_immediate_fail (args : Args) (ora : Oracle)
    (c : Int) (rep : ReportFile) (f : WhatFailed) (fs : List WhatFailed) (np : Nat)
    (h1 : args.parseXmlTestlog = none) (h2 : args.noExtraArgs = false)
    (h3 : ora.fullRun 0 = (.exited c, rep)) (h4 : c ≠ 0)
    (h5 : parse_log (some rep) = .ok (f :: fs, np))
    (h6 : args.maxRepeats = 0) :
    mainRun args ora = (2, [.fullRunSpawn 0]) := by
  unfold mainRun
  rw [fullAttempt_parsed_of args ora 0 c rep f fs np h1 h2 h3 h4 h5]
  show phase2 args ora (f :: fs) [.fullRunSpawn 0] = _
  unfold phase2
  rw [if_pos h6]

/-- C9 witness: a concrete failing run with `maxRepeats = 0` exits 2 after
the single full-run spawn. -/
theorem c9_max_repeats_zero_immediate_fail_witness :
    mainRun ⟨0, 1, none, false⟩
      ⟨fun _ => (.exited 1, .parsed sampleRootOneFail), fun _ _ => .exited 0⟩
      = (2, [.fullRunSpawn 0]) :=
  c9_max_repeats_zero_immediate_fail ⟨0, 1, none, false⟩
    ⟨fun _ => (.exited 1, .parsed sampleRootOneFail), fun _ _ => .exited 0⟩
    1 (.parsed sampleRootOneFail) ⟨"foo", none⟩ [] 0
    rfl rfl rfl (by decide) rfl rfl

/-- C4: when the initial full run exits non-zero and its report is missing
or malformed, exactly one further full execution happens (two full-run
spawns in total, whatever the second run does); and if the second run also
exits non-zero with an unparsable report, the tool exits 3 with no
case-level retry. -/
theorem c4_crash_recovery_two_runs (args : Args) (ora : Oracle)
    (c0 : Int) (rep0 : ReportFile)
    (h1 : args.parseXmlTestlog = none) (h2 : args.noExtraArgs = false)
    (h3 : ora.fullRun 0 = (.exited c0, rep0)) (h4 : c0 ≠ 0)
    (h5 : rep0 = .missing ∨ rep0 = .malformed) :
    ((mainRun args ora).2).countP isFullSpawn = 2 ∧
    (∀ (c1 : Int) (rep1 : ReportFile) (e : ParseLogError),
      ora.fullRun 1 = (.exited c1, rep1) → c1 ≠ 0 → parse_log (some rep1) = .error e →
      mainRun args ora = (3, [.fullRunSpawn 0, .fullRunSpawn 1])) := by
  have hperr : ∃ e0, parse_log (some rep0) = .error e0 := by
    rcases h5 with h | h <;> subst h
    · exact ⟨.reportNotFound, rfl⟩
    · exact ⟨.reportMalformed, rfl⟩
  obtain ⟨e0, he0⟩ := hperr
  have hfa0 : fullAttempt args ora 0 = (.exc, [.fullRunSpawn 0]) :=
    fullAttempt_exc_of_parseError args ora 0 c0 rep0 e0 h1 h2 h3 h4 he0
  constructor
  · rcases hfa1 : fullAttempt args ora 1 with ⟨o1, ev1⟩
    have hev1 : ev1 = [.fullRunSpawn 1] := by
      have hx := fullAttempt_events_normal args ora 1 h1
      rw [hfa1] at hx
      exact hx
    subst hev1
    unfold mainRun
    rw [hfa0, h1]
    simp only [Option.isSome_none, Bool.false_eq_true, if_false]
    rw [hfa1]
    cases o1 with
    | exit0 => rfl
    | exc => rfl
    | parsed fs =>
      show ((phase2 args ora fs ([.fullRunSpawn 0] ++ [.fullRunSpawn 1])).2).countP isFullSpawn = 2
      unfold phase2
      by_cases hmr : args.maxRepeats = 0
      · rw [if_pos hmr]
        rfl
      · rw [if_neg hmr, caseLoop_countP]
        rfl
  · intro c1 rep1 e h6 h7 h8
    have hfa1 : fullAttempt args ora 1 = (.exc, [.fullRunSpawn 1]) :=
      fullAttempt_exc_of_parseError args ora 1 c1 rep1 e h1 h2 h6 h7 h8
    unfold mainRun
    rw [hfa0, h1]
    simp only [Option.isSome_none, Bool.false_eq_true, if_false]
    rw [hfa1]
    rfl

/-- C4 witness: a run whose log file is absent on both attempts spawns the
full suite exactly twice and exits 3. -/
theorem c4_crash_recovery_two_runs_witness :
    ((mainRun ⟨5, 1, none, false⟩
        ⟨fun _ => (.exited 1, .missing), fun _ _ => .exited 0⟩).2).countP isFullSpawn = 2 ∧
    mainRun ⟨5, 1, none, false⟩
      ⟨fun _ => (.exited 1, .missing), fun _ _ => .exited 0⟩
      = (3, [.fullRunSpawn 0, .fullRunSpawn 1]) :=
  have h := c4_crash_recovery_two_runs ⟨5, 1, none, false⟩
    ⟨fun _ => (.exited 1, .missing), fun _ _ => .exited 0⟩
    1 .missing rfl rfl rfl (by decide) (Or.inl rfl)
  ⟨h.1, h.2 1 .missing .reportNotFound rfl (by decide) rfl⟩

/-- C1 counterexample: with an initial full run exiting 1 whose report
parses to zero failures (both times), the tool exits 3 after a second full
run — not 1 as the claim states. -/
theorem c1_zero_failures_counterexample :
    parse_log (some (.parsed sampleRootPassing)) = .ok ([], 1) ∧
    mainRun ⟨5, 1, none, false⟩
      ⟨fun _ => (.exited 1, .parsed sampleRootPassing), fun _ _ => .exited 0⟩
      = (3, [.fullRunSpawn 0, .fullRunSpawn 1]) ∧
    (3 : Nat) ≠ 1 :=
  ⟨rfl, rfl, by decide⟩

/-- C1 amended: a report parsing to zero failure identities despite a
non-zero exit trips the `assert len(failed_functions) > 0` guard, whose
`AssertionError` is caught like a crash: the full suite is re-run once,
and if the anomaly repeats the tool exits 3 — it never exits 1. -/
theorem c1_zero_failures_is_crash_path (args : Args) (ora : Oracle)
    (c0 c1 : Int) (rep0 rep1 : ReportFile) (n0 n1 : Nat)
    (h1 : args.parseXmlTestlog = none) (h2 : args.noExtraArgs = false)
    (h3 : ora.fullRun 0 = (.exited c0, rep0)) (h4 : c0 ≠ 0)
    (h5 : parse_log (some rep0) = .ok ([], n0))
    (h6 : ora.fullRun 1 = (.exited c1, rep1)) (h7 : c1 ≠ 0)
    (h8 : parse_log (some rep1) = .ok ([], n1)) :
    mainRun args ora = (3, [.fullRunSpawn 0, .fullRunSpawn 1]) := by
  have hfa0 := fullAttempt_exc_of_emptyFailures args ora 0 c0 rep0 n0 h1 h2 h3 h4 h5
  have hfa1 := fullAttempt_exc_of_emptyFailures args ora 1 c1 rep1 n1 h1 h2 h6 h7 h8
  unfold mainRun
  rw [hfa0, h1]
  simp only [Option.isSome_none, Bool.false_eq_true, if_false]
  rw [hfa1]
  rfl

/-- C1 witness: the amended crash-path behaviour at a concrete
zero-failure report. -/
theorem c1_zero_failures_is_crash_path_witness :
    mainRun ⟨5, 1, none, false⟩
      ⟨fun _ => (.exited 1, .parsed sampleRootPassing), fun _ _ => .exited 0⟩
      = (3, [.fullRunSpawn 0, .fullRunSpawn 1]) :=
  c1_zero_failures_is_crash_path ⟨5, 1, none, false⟩
    ⟨fun _ => (.exited 1, .parsed sampleRootPassing), fun _ _ => .exited 0⟩
    1 1 (.parsed sampleRootPassing) (.parsed sampleRootPassing) 1 1
    rfl rfl rfl (by decide) rfl rfl (by decide) rfl

/-- C2 counterexample: with `passesNeeded = 2 > maxRepeats = 1 > 0` and a
failing initial run, a full-run subprocess is spawned before the policy
violation is detected (the tool then exits 3), refuting the claim that no
subprocess is spawned under such a configuration. -/
theorem c2_policy_counterexample :
    mainRun ⟨1, 2, none, false⟩
      ⟨fun _ => (.exited 1, .parsed sampleRootOneFail), fun _ _ => .exited 0⟩
      = (3, [.fullRunSpawn 0]) ∧
    [Event.fullRunSpawn 0] ≠ ([] : List Event) :=
  ⟨rfl, by decide⟩

/-- C2 amended: the `passesNeeded ≤ maxRepeats` policy is enforced only by
the assertion at the start of each per-case retry: under a violating
configuration the initial full run is still executed, and then the
`AssertionError` aborts before any case-level subprocess, the tool exiting
3 with the full-run spawn as its only subprocess. -/
theorem c2_policy_checked_at_rerun (args : Args) (ora : Oracle)
    (c : Int) (rep : ReportFile) (f : WhatFailed) (fs : List WhatFailed) (np : Nat)
    (h1 : args.parseXmlTestlog = none) (h2 : args.noExtraArgs = false)
    (h3 : ora.fullRun 0 = (.exited c, rep)) (h4 : c ≠ 0)
    (h5 : parse_log (some rep) = .ok (f :: fs, np))
    (h6 : args.maxRepeats < args.passesNeeded) (h7 : args.maxRepeats ≠ 0) :
    rerun_failed_testcase (ora.caseRun 0) args.maxRepeats args.passesNeeded
      = .error (.assertionError, []) ∧
    mainRun args ora = (3, [.fullRunSpawn 0]) := by
  have hrr : rerun_failed_testcase (ora.caseRun 0) args.maxRepeats args.passesNeeded
      = .error (.assertionError, []) := by
    unfold rerun_failed_testcase
    rw [if_neg (not_le.mpr h6)]
  refine ⟨hrr, ?_⟩
  unfold mainRun
  rw [fullAttempt_parsed_of args ora 0 c rep f fs np h1 h2 h3 h4 h5]
  show phase2 args ora (f :: fs) [.fullRunSpawn 0] = _
  unfold phase2
  rw [if_neg h7]
  simp only [caseLoop, hrr]
  simp

/-- C2 witness: the amended behaviour at the concrete violating
configuration `maxRepeats = 1`, `passesNeeded = 2`. -/
theorem c2_policy_checked_at_rerun_witness :
    rerun_failed_testcase (fun _ => RunResult.exited 0) 1 2
      = .error (.assertionError, []) ∧
    mainRun ⟨1, 2, none, false⟩
      ⟨fun _ => (.exited 1, .parsed sampleRootOneFail), fun _ _ => .exited 0⟩
      = (3, [.fullRunSpawn 0]) :=
  c2_policy_checked_at_rerun ⟨1, 2, none, false⟩
    ⟨fun _ => (.exited 1, .parsed sampleRootOneFail), fun _ _ => .exited 0⟩
    1 (.parsed sampleRootOneFail) ⟨"foo", none⟩ [] 0
    rfl rfl rfl (by decide) rfl (by decide) (by decide)

/-- C5 counterexample: with two failing identities and an always-failing
case oracle, the tool exits 2 right after the first identity's retry loop;
the second identity (`bar`) is never re-executed, refuting the claim that
every identity is retried regardless of an earlier UNRECOVERED one. -/
theorem c5_skipped_identity_counterexample :
    parse_log (some (.parsed sampleRootTwoFails))
      = .ok ([⟨"foo", none⟩, ⟨"bar", none⟩], 0) ∧
    mainRun ⟨1, 1, none, false⟩
      ⟨fun _ => (.exited 1, .parsed sampleRootTwoFails), fun _ _ => .exited 1⟩
      = (2, [.fullRunSpawn 0, .caseSpawn 0 0 true]) :=
  ⟨rfl, rfl⟩

/-- C5 amended: identities are retried in list order only up to the first
UNRECOVERED one: a retry returning `false` makes the tool exit 2
immediately, with no attempts for the remaining identities, while a retry
returning `true` lets the loop continue with the next identity. -/
theorem c5_stops_at_first_unrecovered (args : Args) (ora : Oracle)
    (f : WhatFailed) (rest : List WhatFailed) (idx : Nat) (ev : List Event)
    (t : List Attempt) :
    (rerun_failed_testcase (ora.caseRun idx) args.maxRepeats args.passesNeeded
        = .ok (false, t) →
      caseLoop args ora (f :: rest) idx ev = (2, ev ++ t.map (caseEvent idx))) ∧
    (rerun_failed_testcase (ora.caseRun idx) args.maxRepeats args.passesNeeded
        = .ok (true, t) →
      caseLoop args ora (f :: rest) idx ev
        = caseLoop args ora rest (idx + 1) (ev ++ t.map (caseEvent idx))) := by
  constructor <;> intro h <;> simp only [caseLoop, h]

/-- C5 witness: with an always-failing case oracle the loop stops at the
first identity, emitting only its one (verbose) attempt. -/
theorem c5_stops_at_first_unrecovered_witness :
    caseLoop ⟨1, 1, none, false⟩
      ⟨fun _ => (.exited 1, .parsed sampleRootOneFail), fun _ _ => .exited 1⟩
      [⟨"foo", none⟩] 0 [] = (2, [.caseSpawn 0 0 true]) :=
  (c5_stops_at_first_unrecovered ⟨1, 1, none, false⟩
    ⟨fun _ => (.exited 1, .parsed sampleRootOneFail), fun _ _ => .exited 1⟩
    ⟨"foo", none⟩ [] 0 [] [⟨0, true⟩]).1 rfl

/-- C6 counterexample: at the same configuration (`maxRepeats = 2`,
`passesNeeded = 1`), a first attempt exiting 1 leads to a second attempt,
while a first attempt that times out aborts the loop with an error after
one attempt; at main level the timeout yields exit 3 where an ordinary
failure yields exit 2 — a timeout is not one more failed attempt. -/
theorem c6_timeout_counterexample :
    rerun_failed_testcase (fun _ => .timedOut) 2 1
      = .error (.timeoutExpired, [⟨0, false⟩]) ∧
    rerun_failed_testcase (fun _ => .exited 1) 2 1
      = .ok (false, [⟨0, false⟩, ⟨1, true⟩]) ∧
    mainRun ⟨1, 1, none, false⟩
      ⟨fun _ => (.exited 1, .parsed sampleRootOneFail), fun _ _ => .timedOut⟩
      = (3, [.fullRunSpawn 0, .caseSpawn 0 0 true]) ∧
    mainRun ⟨1, 1, none, false⟩
      ⟨fun _ => (.exited 1, .parsed sampleRootOneFail), fun _ _ => .exited 1⟩
      = (2, [.fullRunSpawn 0, .caseSpawn 0 0 true]) :=
  ⟨rfl, rfl, rfl, rfl⟩

/-- C6 amended: a timed-out per-case attempt is never silently ignored —
the attempt is recorded and the retry loop aborts at once with a timeout
error, which the orchestrator turns into exit 3 (crash), unlike an
ordinary non-zero exit that merely counts as a failed attempt. -/
theorem c6_timeout_aborts_as_crash (args : Args) (ora : Oracle)
    (f : WhatFailed) (rest : List WhatFailed) (idx : Nat) (ev : List Event)
    (h1 : 1 ≤ args.maxRepeats) (h2 : args.passesNeeded ≤ args.maxRepeats)
    (h3 : ora.caseRun idx 0 = .timedOut) :
    rerun_failed_testcase (ora.caseRun idx) args.maxRepeats args.passesNeeded
      = .error (.timeoutExpired, [⟨0, verboseAt args.maxRepeats 0⟩]) ∧
    caseLoop args ora (f :: rest) idx ev
      = (3, ev ++ [.caseSpawn idx 0 (verboseAt args.maxRepeats 0)]) := by
  obtain ⟨k, hk⟩ : ∃ k, args.maxRepeats.toNat = k + 1 :=
    ⟨args.maxRepeats.toNat - 1, by omega⟩
  have hrr : rerun_failed_testcase (ora.caseRun idx) args.maxRepeats args.passesNeeded
      = .error (.timeoutExpired, [⟨0, verboseAt args.maxRepeats 0⟩]) := by
    unfold rerun_failed_testcase
    rw [if_pos h2, List.range_eq_range', hk, List.range'_succ]
    simp only [rerunGo]
    rw [h3]
    simp
  refine ⟨hrr, ?_⟩
  simp only [caseLoop, hrr]
  simp [caseEvent]

/-- C6 witness: the amended abort-as-crash behaviour at a concrete
timing-out case oracle. -/
theorem c6_timeout_aborts_as_crash_witness :
    caseLoop ⟨1, 1, none, false⟩
      ⟨fun _ => (.exited 1, .parsed sampleRootOneFail), fun _ _ => .timedOut⟩
      [⟨"foo", none⟩] 0 [] = (3, [.caseSpawn 0 0 true]) :=
  (c6_timeout_aborts_as_crash ⟨1, 1, none, false⟩
    ⟨fun _ => (.exited 1, .parsed sampleRootOneFail), fun _ _ => .timedOut⟩
    ⟨"foo", none⟩ [] 0 [] (by decide) (by decide) rfl).2

/-- C10 counterexample: in the alternate entry mode a zero-failure report
with `maxRepeats = 0` makes the tool exit 2, not 0. -/
theorem c10_alt_mode_counterexample :
    parse_log (some (.parsed sampleRootPassing)) = .ok ([], 1) ∧
    mainRun ⟨0, 1, some (.parsed sampleRootPassing), false⟩ idleOracle = (2, []) ∧
    (2 : Nat) ≠ 0 :=
  ⟨rfl, rfl, by decide⟩

/-- C10 amended: in the alternate entry mode with `maxRepeats ≠ 0`, a
report parsing to zero failure identities makes the tool exit 0 with no
subprocess spawned — the zero-failures-despite-non-zero-exit assertion is
skipped in this mode; with `maxRepeats = 0` the tool instead exits 2. -/
theorem c10_alt_mode_zero_failures_pass (args : Args) (ora : Oracle)
    (rf : ReportFile) (n : Nat)
    (h1 : args.parseXmlTestlog = some rf)
    (h2 : parse_log (some rf) = .ok ([], n))
    (h3 : args.maxRepeats ≠ 0) :
    mainRun args ora = (0, []) := by
  have hfa0 := fullAttempt_alt_parsed args ora 0 rf [] n h1 h2
  unfold mainRun
  rw [hfa0]
  show phase2 args ora [] [] = _
  unfold phase2
  rw [if_neg h3]
  rfl

/-- C10 witness: the amended pass behaviour at a concrete zero-failure
report with the default `maxRepeats = 5`. -/
theorem c10_alt_mode_zero_failures_pass_witness :
    mainRun ⟨5, 1, some (.parsed sampleRootPassing), false⟩ idleOracle = (0, []) :=
  c10_alt_mode_zero_failures_pass ⟨5, 1, some (.parsed sampleRootPassing), false⟩
    idleOracle (.parsed sampleRootPassing) 1 rfl rfl (by decide)

end QtTestRunner
